import Mathlib

/-!
Shallow embedding of the zeno_query_exporter translation engine
(`exporter.go`: `runJob`, `writeMetric`, and the synthetic partition metrics)
and of the two `handleMetrics` HTTP handler variants (`main.go`).

Go maps are modelled as association lists with at most one live entry per
key: `lookupA` is map read, `upsert` is map write (overwrite-or-append, so
iteration order of a model map is insertion order; Go's randomized map
iteration order is fixed to this one deterministic order by the embedding).
Go `float64` values are modelled as rationals, and `fmt`'s `%f` verb as
`formatFixed6` (round half to even, six fractional digits), which agrees
with Go on every value that is exact at six decimal places.
-/

namespace Zeno

/-- Map read of a Go map modelled as an association list: first (hence only
live) binding of the key, if any. -/
def lookupA {α β : Type} [DecidableEq α] : List (α × β) → α → Option β
  | [], _ => none
  | p :: rest, k => if p.1 = k then some p.2 else lookupA rest k

/-- Map write of a Go map modelled as an association list: overwrite the
live binding of the key in place, or append a fresh one. -/
def upsert {α β : Type} [DecidableEq α] : List (α × β) → α → β → List (α × β)
  | [], k, v => [(k, v)]
  | p :: rest, k, v => if p.1 = k then (k, v) :: rest else p :: upsert rest k v

/-- Metric type enum of `exporter.go` (`counter`/`gauge`). -/
inductive MetricType where
  | counter
  | gauge
deriving DecidableEq

/-- String form of a metric type, as interpolated by `%s` in `writeMetric`. -/
def MetricType.render : MetricType → String
  | .counter => "counter"
  | .gauge => "gauge"

/-- The `Metric` struct of `exporter.go`: descriptor of one Prometheus
series family. -/
structure Metric where
  name : String
  help : String
  type : MetricType
  extraLabels : List (String × String)
deriving DecidableEq

/-- The `Job` struct of `exporter.go`. -/
structure Job where
  query : String
  ignoreDims : List String
  renameDims : List (String × String)
  metrics : List (String × Metric)
deriving DecidableEq

/-- The `Config` struct of `exporter.go` (single-config variant). -/
structure Config where
  jobs : List (String × Job)

/-- The synthetic total-partitions gauge descriptor (`metricTotalPartitions`
in `exporter.go`; its `Help` and `ExtraLabels` fields are Go zero values). -/
def metricTotalPartitions : Metric :=
  { name := "zeno_query_exporter_zeno_partitions_total"
    help := ""
    type := .gauge
    extraLabels := [] }

/-- The synthetic missing-partitions gauge descriptor
(`metricMissingPartitions` in `exporter.go`). -/
def metricMissingPartitions : Metric :=
  { name := "zeno_query_exporter_zeno_partitions_missing"
    help := ""
    type := .gauge
    extraLabels := [] }

/-- Round a nonnegative quotient `n / d` to the nearest integer, ties to
even — the rounding Go's `%f` applies to the exact value it formats. -/
def roundHalfEven (n d : ℕ) : ℕ :=
  let i := n / d
  let r := n % d
  if 2 * r < d then i
  else if d < 2 * r then i + 1
  else if i % 2 = 0 then i else i + 1

/-- Left-pad a digit string with zeros to six characters. -/
def padSixDigits (s : String) : String :=
  String.mk (List.replicate (6 - s.length) '0') ++ s

/-- Render a count of micro-units as a fixed-point decimal with six
fractional digits. -/
def fmtMicros (m : ℕ) : String :=
  toString (m / 1000000) ++ "." ++ padSixDigits (toString (m % 1000000))

/-- Model of `fmt`'s `%f` verb on a `float64` whose exact value is the given
rational: fixed-point decimal, six fractional digits, round half to even. -/
def formatFixed6 (q : ℚ) : String :=
  if q.num < 0 then "-" ++ fmtMicros (roundHalfEven (q.num.natAbs * 1000000) q.den)
  else fmtMicros (roundHalfEven (q.num.toNat * 1000000) q.den)

/-- The label-pair serialization loop of `writeMetric`: each pair renders as
`name="value"`, a comma is written before every pair except the first
(the `comma` flag of the Go closure is the Bool accumulator component). -/
def writeLabelPairs (pairs : List (String × String)) : String :=
  (pairs.foldl
    (fun acc p =>
      (acc.1 ++ (if acc.2 then "," else "") ++ p.1 ++ "=\"" ++ p.2 ++ "\"", true))
    ("", false)).1

/-- The `writeMetric` function of `exporter.go`, returning the bytes it
writes to `out`: HELP line, TYPE line, then the sample line.  Row-derived
labels are written before the descriptor's extra labels, as in the source's
two successive loops. -/
def writeMetric (value : ℚ) (timestampMs : ℤ) (meta : Metric)
    (labels : List (String × String)) : String :=
  let hasLabel : Bool := decide (labels.length > 0) || decide (meta.extraLabels.length > 0)
  "# HELP " ++ meta.name ++ " " ++ meta.help ++ "\n" ++
  "# TYPE " ++ meta.name ++ " " ++ meta.type.render ++ "\n" ++
  meta.name ++
  (if hasLabel then "\x7b" ++ writeLabelPairs (labels ++ meta.extraLabels) ++ "\x7d" else "") ++
  " " ++ formatFixed6 value ++ " " ++ toString timestampMs ++ "\n"

/-- Scalar dimension values of a query-result row key, together with their
`fmt.Sprintf("%v", value)` default rendering. -/
inductive DimValue where
  | str (s : String)
  | int (n : ℤ)
  | boolean (b : Bool)
deriving DecidableEq

/-- Default `%v` string form of a dimension value. -/
def DimValue.render : DimValue → String
  | .str s => s
  | .int n => toString n
  | .boolean b => if b then "true" else "false"

/-- One iteration of the dimension-key loop of `runJob` (lines 107-117 of
`exporter.go`): look the dimension up in `RenameDims`; a hit with a
non-empty label name writes under that name, a hit with the empty string
writes nothing, a miss writes under the original dimension name. -/
def labelStep (renameDims : List (String × String)) (labels : List (String × String))
    (dim : String) (value : DimValue) : List (String × String) :=
  let vs := value.render
  match lookupA renameDims dim with
  | some renamed => if renamed ≠ "" then upsert labels renamed vs else labels
  | none => upsert labels dim vs

/-- The `labels` map computed for one row by `runJob`, as a fold of
`labelStep` over the row's dimension key. -/
def translateLabels (renameDims : List (String × String))
    (key : List (String × DimValue)) : List (String × String) :=
  key.foldl (fun labels p => labelStep renameDims labels p.1 p.2) []

/-- Where a dimension ends up: `some label` if it is written to the label
map under `label`, `none` if it is dropped. Derived view of `labelStep`. -/
def dimTarget (renameDims : List (String × String)) (dim : String) : Option String :=
  match lookupA renameDims dim with
  | some renamed => if renamed = "" then none else some renamed
  | none => some dim

/-- The `idxToMetric` accumulation loop of `runJob` (lines 118-123): walk
the field names with a running index, recording matches in `Metrics`. -/
def buildIdxToMetric (metrics : List (String × Metric)) :
    ℕ → List String → List (ℕ × Metric) → List (ℕ × Metric)
  | _, [], acc => acc
  | idx, fieldName :: rest, acc =>
    buildIdxToMetric metrics (idx + 1) rest
      (match lookupA metrics fieldName with
       | some m => upsert acc idx m
       | none => acc)

/-- The `idxToMetric` map of `runJob` for one row. -/
def idxToMetric (metrics : List (String × Metric)) (fieldNames : List String) :
    List (ℕ × Metric) :=
  buildIdxToMetric metrics 0 fieldNames []

/-- One emitted sample: the argument tuple of one `writeMetric` call. -/
structure Sample where
  metric : Metric
  labels : List (String × String)
  value : ℚ
  ts : ℤ
deriving DecidableEq

/-- The value-emission loop of `runJob` (lines 125-129): walk the row's
values with a running index and emit one sample per index matched in
`idxToMetric`. -/
def emitSamples (i2m : List (ℕ × Metric)) (labels : List (String × String))
    (tsMs : ℤ) : ℕ → List ℚ → List Sample
  | _, [] => []
  | i, v :: rest =>
    (match lookupA i2m i with
     | some m => [⟨m, labels, v, tsMs⟩]
     | none => []) ++ emitSamples i2m labels tsMs (i + 1) rest

/-- One query-result row (`core.FlatRow`): dimension key, timestamp in
nanoseconds, positional values. -/
structure FlatRow where
  key : List (String × DimValue)
  ts : ℤ
  values : List ℚ
deriving DecidableEq

/-- Partition statistics returned by the query client's iteration. -/
structure QueryStats where
  numPartitions : ℤ
  numSuccessfulPartitions : ℤ
deriving DecidableEq

/-- One query execution's result: field names, rows, partition stats. -/
structure QueryResult where
  fieldNames : List String
  rows : List FlatRow
  stats : QueryStats
deriving DecidableEq

/-- The samples `runJob`'s iteration callback emits for one row:
translated labels, `idxToMetric` matches, timestamp `row.TS/1000000`
(Go integer division truncates toward zero, hence `Int.tdiv`). -/
def rowSamples (job : Job) (fieldNames : List String)
    (renameDims : List (String × String)) (row : FlatRow) : List Sample :=
  emitSamples (idxToMetric job.metrics fieldNames)
    (translateLabels renameDims row.key) (Int.tdiv row.ts 1000000) 0 row.values

/-- The bytes one sample's `writeMetric` call produces. -/
def writeSample (s : Sample) : String :=
  writeMetric s.value s.ts s.metric s.labels

/-- The bytes written while translating one row. -/
def rowOutput (job : Job) (fieldNames : List String)
    (renameDims : List (String × String)) (row : FlatRow) : String :=
  String.join ((rowSamples job fieldNames renameDims row).map writeSample)

/-- The ignore-folding loop at the top of `runJob` (lines 82-87): every
name of `IgnoreDims` is written into `RenameDims` mapped to `""`. -/
def foldIgnoreDims (renameDims : List (String × String))
    (ignoreDims : List String) : List (String × String) :=
  ignoreDims.foldl (fun acc dim => upsert acc dim "") renameDims

/-- Abstract interface of Go's `text/template` engine (an external
collaborator): `parse` may fail on a malformed template, `execute` renders
a parsed template of abstract type `T` against the parameter map and may
fail on an unresolvable construct. -/
structure TemplateEngine (T : Type) where
  parse : String → Except String T
  execute : T → List (String × String) → Except String String

/-- The query-templating step of `runJob` (lines 88-100): with a non-empty
parameter map, parse then execute the template; otherwise use the query
string verbatim. -/
def resolveQuery {T : Type} (engine : TemplateEngine T) (query : String)
    (params : List (String × String)) : Except String String :=
  if params.length > 0 then
    match engine.parse query with
    | .error e => .error e
    | .ok t => engine.execute t params
  else .ok query

/-- Errors `runJob` returns, tagged by the step that produced them. -/
inductive RunError where
  | templateError (e : String)
  | queryError (e : String)
deriving DecidableEq

/-- The `runJob` function of `exporter.go`, returning the bytes written to
`out` on success: fold ignored dimensions into the rename map, resolve the
query template, run the query through the external client, translate and
write every row, then write the two completeness gauges labeled
`job=<name>` at wall-clock time `now` (milliseconds). -/
def runJob {T : Type} (engine : TemplateEngine T)
    (client : String → Except String QueryResult) (name : String) (job : Job)
    (params : List (String × String)) (now : ℤ) : Except RunError String :=
  let renameDims := foldIgnoreDims job.renameDims job.ignoreDims
  match resolveQuery engine job.query params with
  | .error e => .error (.templateError e)
  | .ok query =>
    match client query with
    | .error e => .error (.queryError e)
    | .ok res =>
      .ok (String.join (res.rows.map (rowOutput job res.fieldNames renameDims)) ++
        writeMetric ((res.stats.numPartitions : ℤ) : ℚ) now
          metricTotalPartitions [("job", name)] ++
        writeMetric (((res.stats.numPartitions - res.stats.numSuccessfulPartitions : ℤ)) : ℚ)
          now metricMissingPartitions [("job", name)])

/-- An HTTP response as the handler models see it: the status code written
(200 when the handler never calls `WriteHeader`) and the body bytes. -/
structure HttpResponse where
  status : ℕ
  body : String
deriving DecidableEq

/-- Model of `url.Values.Get`: first value of the key, `""` when absent. -/
def getParam (query : List (String × List String)) (k : String) : String :=
  match lookupA query k with
  | some (v :: _) => v
  | _ => ""

/-- The parameter-map extraction of the directory-of-jobs `handleMetrics`
(lines 104-109 of `main.go`): delete `job` and `timeout`, keep the first
value of every remaining query parameter. -/
def extractParams (query : List (String × List String)) : List (String × String) :=
  (query.filter (fun p => p.1 ≠ "job" ∧ p.1 ≠ "timeout")).filterMap
    (fun p => p.2.head?.map (fun v => (p.1, v)))

/-- The directory-of-jobs `handleMetrics` handler of `main.go` (lines
86-123): 400 on a missing job parameter, 404 on an unknown job, both with
an early return; otherwise run the job.  The request deadline and the
504/500 distinction on failure are outside the shallow embedding; a failed
job is modelled as a bare 500.  The source's call site predates the
name-taking `runJob` of `exporter.go` (it passes no job name); per the
completeness-accounting contract the handler's job name is supplied. -/
def handleMetrics {T : Type} (jobs : List (String × Job))
    (engine : TemplateEngine T) (client : String → Except String QueryResult)
    (now : ℤ) (query : List (String × List String)) : HttpResponse :=
  let name := getParam query "job"
  if name = "" then ⟨400, "job not specified\n"⟩
  else
    match lookupA jobs name with
    | none => ⟨404, "job not found\n"⟩
    | some job =>
      match runJob engine client name job (extractParams query) now with
      | .ok out => ⟨200, out⟩
      | .error _ => ⟨500, ""⟩

/-- The Go zero value of the `Job` struct. -/
def zeroJob : Job :=
  { query := "", ignoreDims := [], renameDims := [], metrics := [] }

/-- The single-config `handleMetrics` handler variant of `main.go` (lines
195-210): 400 with body `missing job parameter` on a missing job name;
on an unknown name it writes the 404 status and `job not found` body but
does not return, falling through to `runJob` with the zero-value `Job`.
Modelled from the spec: this variant's `runJob(ctx, client, job, rw)` call
site supplies neither a job name nor template parameters (that `runJob`
overload is not part of the sources); per the completeness-accounting
contract (gauges labeled `job=<job name>`) it is modelled as the engine's
`runJob` applied to the zero-value name `""` and the empty parameter map.
An error returned by `runJob` is discarded by this variant. -/
def handleMetricsSingle {T : Type} (cfg : Config) (engine : TemplateEngine T)
    (client : String → Except String QueryResult) (now : ℤ)
    (query : List (String × List String)) : HttpResponse :=
  let name := getParam query "job"
  if name = "" then ⟨400, "missing job parameter"⟩
  else
    let found := lookupA cfg.jobs name
    let status : ℕ := match found with | some _ => 200 | none => 404
    let errBody : String := match found with | some _ => "" | none => "job not found"
    let job : Job := match found with | some j => j | none => zeroJob
    let out : String :=
      match runJob engine client "" job [] now with
      | .ok s => s
      | .error _ => ""
    ⟨status, errBody ++ out⟩

theorem lookupA_upsert_self {α β : Type} [DecidableEq α] (l : List (α × β)) (k : α) (v : β) :
    lookupA (upsert l k v) k = some v := by
  induction l with
  | nil => simp [upsert, lookupA]
  | cons p rest ih =>
    by_cases h : p.1 = k
    · simp [upsert, h, lookupA]
    · simp [upsert, h, lookupA, ih]

theorem lookupA_upsert_ne {α β : Type} [DecidableEq α] (l : List (α × β)) (k k' : α) (v : β)
    (h : k' ≠ k) : lookupA (upsert l k v) k' = lookupA l k' := by
  have hk : ¬(k = k') := fun e => h e.symm
  induction l with
  | nil => simp [upsert, lookupA, hk]
  | cons p rest ih =>
    by_cases hp : p.1 = k
    · simp [upsert, hp, lookupA, hk]
    · simp [upsert, hp, lookupA, ih]

theorem labelStep_eq (renameDims labels : List (String × String)) (dim : String)
    (value : DimValue) :
    labelStep renameDims labels dim value =
      match dimTarget renameDims dim with
      | some t => upsert labels t value.render
      | none => labels := by
  unfold labelStep dimTarget
  cases h : lookupA renameDims dim with
  | none => simp
  | some r => by_cases hr : r = "" <;> simp [hr]

theorem lookupA_labelFold_frame (renameDims : List (String × String))
    (key : List (String × DimValue)) (init : List (String × String)) (n : String)
    (h : ∀ p ∈ key, dimTarget renameDims p.1 ≠ some n) :
    lookupA (key.foldl (fun labels p => labelStep renameDims labels p.1 p.2) init) n
      = lookupA init n := by
  induction key generalizing init with
  | nil => rfl
  | cons p rest ih =>
    rw [List.foldl_cons, ih _ (fun q hq => h q (List.mem_cons_of_mem _ hq))]
    rw [labelStep_eq]
    have hp := h p (List.mem_cons_self _ _)
    cases ht : dimTarget renameDims p.1 with
    | none => rfl
    | some t =>
      have hne : n ≠ t := by
        intro e
        exact hp (e ▸ ht)
      exact lookupA_upsert_ne _ _ _ _ hne

theorem lookupA_labelFold_target (renameDims : List (String × String))
    (key : List (String × DimValue)) (init : List (String × String))
    (htargets : (key.filterMap (fun p => dimTarget renameDims p.1)).Nodup)
    {d t : String} {v : DimValue}
    (hmem : (d, v) ∈ key) (ht : dimTarget renameDims d = some t) :
    lookupA (key.foldl (fun labels p => labelStep renameDims labels p.1 p.2) init) t
      = some v.render := by
  induction key generalizing init with
  | nil => cases hmem
  | cons p rest ih =>
    rw [List.foldl_cons]
    rcases List.mem_cons.mp hmem with heq | hmem'
    · have hp : p = (d, v) := heq.symm
      subst hp
      have hfm : (List.filterMap (fun p => dimTarget renameDims p.1) ((d, v) :: rest))
          = t :: List.filterMap (fun p => dimTarget renameDims p.1) rest := by
        rw [List.filterMap_cons]
        simp [ht]
      rw [hfm] at htargets
      have hrest : ∀ q ∈ rest, dimTarget renameDims q.1 ≠ some t := by
        intro q hq hcontra
        exact (List.nodup_cons.mp htargets).1
          (List.mem_filterMap.mpr ⟨q, hq, hcontra⟩)
      rw [lookupA_labelFold_frame _ _ _ _ hrest, labelStep_eq, ht]
      exact lookupA_upsert_self _ _ _
    · have htargets' : (rest.filterMap (fun p => dimTarget renameDims p.1)).Nodup := by
        rw [List.filterMap_cons] at htargets
        cases hpt : dimTarget renameDims p.1 with
        | none => rw [hpt] at htargets; exact htargets
        | some u => rw [hpt] at htargets; exact htargets.of_cons
      exact ih _ htargets' hmem'

theorem labelFold_erase_dropped (renameDims : List (String × String))
    (key : List (String × DimValue)) (init : List (String × String)) (d : String)
    (hd : lookupA renameDims d = some "") :
    key.foldl (fun labels p => labelStep renameDims labels p.1 p.2) init
      = (key.filter (fun p => p.1 ≠ d)).foldl
          (fun labels p => labelStep renameDims labels p.1 p.2) init := by
  induction key generalizing init with
  | nil => rfl
  | cons p rest ih =>
    by_cases hp : p.1 = d
    · have hstep : labelStep renameDims init p.1 p.2 = init := by
        unfold labelStep
        rw [hp, hd]
        simp
      have hfilter : (p :: rest).filter (fun q => q.1 ≠ d) = rest.filter (fun q => q.1 ≠ d) := by
        simp [List.filter_cons, hp]
      rw [hfilter, List.foldl_cons, hstep]
      exact ih init
    · have hfilter : (p :: rest).filter (fun q => q.1 ≠ d)
          = p :: rest.filter (fun q => q.1 ≠ d) := by
        simp [List.filter_cons, hp]
      rw [hfilter, List.foldl_cons, List.foldl_cons]
      exact ih _

theorem translateLabels_provenance (renameDims : List (String × String))
    (key : List (String × DimValue)) (n : String) (v' : String)
    (h : lookupA (translateLabels renameDims key) n = some v') :
    ∃ p ∈ key, dimTarget renameDims p.1 = some n := by
  by_contra hc
  push_neg at hc
  rw [translateLabels, lookupA_labelFold_frame _ _ _ _ hc] at h
  simp [lookupA] at h

theorem lookupA_foldIgnoreDims_not_mem (ignoreDims : List String)
    (renameDims : List (String × String)) (k : String) (h : k ∉ ignoreDims) :
    lookupA (foldIgnoreDims renameDims ignoreDims) k = lookupA renameDims k := by
  induction ignoreDims generalizing renameDims with
  | nil => rfl
  | cons d rest ih =>
    have hne : k ≠ d := fun e => h (e ▸ List.mem_cons_self _ _)
    have hrest : k ∉ rest := fun e => h (List.mem_cons_of_mem _ e)
    rw [foldIgnoreDims, List.foldl_cons]
    rw [show rest.foldl (fun acc dim => upsert acc dim "") (upsert renameDims d "")
        = foldIgnoreDims (upsert renameDims d "") rest from rfl]
    rw [ih _ hrest]
    exact lookupA_upsert_ne _ _ _ _ hne

theorem lookupA_foldIgnoreDims_mem (ignoreDims : List String)
    (renameDims : List (String × String)) (d : String) (h : d ∈ ignoreDims) :
    lookupA (foldIgnoreDims renameDims ignoreDims) d = some "" := by
  induction ignoreDims generalizing renameDims with
  | nil => cases h
  | cons d' rest ih =>
    rw [foldIgnoreDims, List.foldl_cons]
    rw [show rest.foldl (fun acc dim => upsert acc dim "") (upsert renameDims d' "")
        = foldIgnoreDims (upsert renameDims d' "") rest from rfl]
    by_cases hd : d ∈ rest
    · exact ih _ hd
    · have heq : d = d' := by
        rcases List.mem_cons.mp h with h1 | h2
        · exact h1
        · exact absurd h2 hd
      rw [lookupA_foldIgnoreDims_not_mem _ _ _ hd, heq]
      exact lookupA_upsert_self _ _ _

/-- C1 (amended): Row translation label rules, restricted to rows in which
no two dimensions of the key resolve to the same target label name — the
hypothesis the unrestricted claim lacks; without it the claim fails, since
`labels[renamed] = vs` overwrites an earlier colliding write: a dimension
renamed to a non-empty label name is emitted under that label name with
its `%v` string value; a dimension renamed to the empty string is dropped
entirely (erasing it from the key leaves the label map unchanged, and
every name of the label map is the target of some non-dropped dimension);
a dimension absent from the rename map is emitted under its own name with
its `%v` string value. -/
theorem c1_row_label_rules (renameDims : List (String × String))
    (key : List (String × DimValue))
    (htargets : (key.filterMap (fun p => dimTarget renameDims p.1)).Nodup) :
    (∀ d v lbl, (d, v) ∈ key → lookupA renameDims d = some lbl → lbl ≠ "" →
      lookupA (translateLabels renameDims key) lbl = some v.render) ∧
    (∀ d, lookupA renameDims d = some "" →
      translateLabels renameDims key
        = translateLabels renameDims (key.filter (fun p => p.1 ≠ d)) ∧
      ∀ n v', lookupA (translateLabels renameDims key) n = some v' →
        ∃ p ∈ key, p.1 ≠ d ∧ dimTarget renameDims p.1 = some n) ∧
    (∀ d v, (d, v) ∈ key → lookupA renameDims d = none →
      lookupA (translateLabels renameDims key) d = some v.render) := by
  refine ⟨fun d v lbl hmem hlook hne => ?_, fun d hdrop => ⟨?_, fun n v' hsome => ?_⟩,
    fun d v hmem hlook => ?_⟩
  · have ht : dimTarget renameDims d = some lbl := by
      unfold dimTarget
      rw [hlook]
      simp [hne]
    exact lookupA_labelFold_target renameDims key [] htargets hmem ht
  · exact labelFold_erase_dropped renameDims key [] d hdrop
  · obtain ⟨p, hp, hpt⟩ := translateLabels_provenance renameDims key n v' hsome
    refine ⟨p, hp, fun e => ?_, hpt⟩
    rw [e] at hpt
    unfold dimTarget at hpt
    rw [hdrop] at hpt
    simp at hpt
  · have ht : dimTarget renameDims d = some d := by
      unfold dimTarget
      rw [hlook]
    exact lookupA_labelFold_target renameDims key [] htargets hmem ht

/-- Counterexample to C1 as frozen: with `a` and `b` both renamed to the
label `x`, dimension `a` is present in the rename map with a non-empty
label name, yet the produced label set is exactly `x="2"` — the later map
write for `b` overwrote it, so `a` is not emitted under `x` with its value
`"1"` (and `"1"` appears nowhere in the label set). -/
theorem c1_counterexample :
    translateLabels [("a", "x"), ("b", "x")]
      [("a", DimValue.str "1"), ("b", DimValue.str "2")] = [("x", "2")] ∧
    lookupA (translateLabels [("a", "x"), ("b", "x")]
      [("a", DimValue.str "1"), ("b", DimValue.str "2")]) "x" ≠ some "1" := by
  decide

/-- Closed instantiation of the amended C1 rules: rename `a` to `x`, drop
`b`, pass `c` through. -/
theorem c1_witness :
    lookupA (translateLabels [("a", "x"), ("b", "")]
      [("a", DimValue.str "1"), ("b", DimValue.int 2), ("c", DimValue.str "z")]) "x"
      = some "1" ∧
    translateLabels [("a", "x"), ("b", "")]
      [("a", DimValue.str "1"), ("b", DimValue.int 2), ("c", DimValue.str "z")]
      = translateLabels [("a", "x"), ("b", "")]
          ([("a", DimValue.str "1"), ("b", DimValue.int 2),
            ("c", DimValue.str "z")].filter (fun p => p.1 ≠ "b")) ∧
    lookupA (translateLabels [("a", "x"), ("b", "")]
      [("a", DimValue.str "1"), ("b", DimValue.int 2), ("c", DimValue.str "z")]) "c"
      = some "z" := by
  obtain ⟨h1, h2, h3⟩ := c1_row_label_rules [("a", "x"), ("b", "")]
    [("a", DimValue.str "1"), ("b", DimValue.int 2), ("c", DimValue.str "z")] (by decide)
  exact ⟨h1 "a" (DimValue.str "1") "x" (by decide) (by decide) (by decide),
    (h2 "b" (by decide)).1,
    h3 "c" (DimValue.str "z") (by decide) (by decide)⟩

/-- C5: after the ignore/rename folding at the top of `runJob`, every name
of `IgnoreDims` maps to the empty string in the effective rename table, and
the table is unaltered at every key not in `IgnoreDims`. -/
theorem c5_ignore_folding (renameDims : List (String × String))
    (ignoreDims : List String) :
    (∀ d ∈ ignoreDims, lookupA (foldIgnoreDims renameDims ignoreDims) d = some "") ∧
    (∀ k, k ∉ ignoreDims →
      lookupA (foldIgnoreDims renameDims ignoreDims) k = lookupA renameDims k) :=
  ⟨fun d hd => lookupA_foldIgnoreDims_mem ignoreDims renameDims d hd,
   fun k hk => lookupA_foldIgnoreDims_not_mem ignoreDims renameDims k hk⟩

/-- Closed instantiation of the C5 folding invariant. -/
theorem c5_witness :
    lookupA (foldIgnoreDims [("a", "x"), ("b", "y")] ["b", "c"]) "b" = some "" ∧
    lookupA (foldIgnoreDims [("a", "x"), ("b", "y")] ["b", "c"]) "c" = some "" ∧
    lookupA (foldIgnoreDims [("a", "x"), ("b", "y")] ["b", "c"]) "a" = some "x" := by
  obtain ⟨h1, h2⟩ := c5_ignore_folding [("a", "x"), ("b", "y")] ["b", "c"]
  exact ⟨h1 "b" (by decide), h1 "c" (by decide),
    (h2 "a" (by decide)).trans (by decide)⟩

/-- Comma-joined list of strings, following the spec's words
("comma-joined label pairs"). -/
def commaJoin : List String → String
  | [] => ""
  | x :: rest => rest.foldl (fun a b => a ++ "," ++ b) x

/-- Exposition rendering of one label pair, `name="value"`. -/
def labelPairRender (p : String × String) : String :=
  p.1 ++ "=\"" ++ p.2 ++ "\""

theorem writeLabelPairs_aux (pairs : List (String × String)) (s : String) :
    (pairs.foldl
      (fun acc p =>
        (acc.1 ++ (if acc.2 then "," else "") ++ p.1 ++ "=\"" ++ p.2 ++ "\"", true))
      (s, true)).1
      = (pairs.map labelPairRender).foldl (fun a b => a ++ "," ++ b) s := by
  induction pairs generalizing s with
  | nil => rfl
  | cons p rest ih =>
    rw [List.foldl_cons, List.map_cons, List.foldl_cons]
    rw [show (if true then "," else "") = "," from rfl]
    rw [ih]
    congr 1
    simp [labelPairRender, String.append_assoc]

theorem writeLabelPairs_eq (pairs : List (String × String)) :
    writeLabelPairs pairs = commaJoin (pairs.map labelPairRender) := by
  cases pairs with
  | nil => rfl
  | cons p rest =>
    rw [writeLabelPairs, List.foldl_cons]
    rw [show (if false then "," else "") = "" from rfl]
    rw [show ("" ++ "" ++ p.1 ++ "=\"" ++ p.2 ++ "\"", true)
        = (labelPairRender p, true) from rfl]
    rw [writeLabelPairs_aux, List.map_cons]
    rfl

/-- C2: Exposition Writer byte format: each `writeMetric` call emits the
descriptor's HELP and TYPE lines immediately before the sample line; the
sample line is the metric name, a brace-enclosed comma-joined list of
`name="value"` pairs when at least one label exists (no braces at all with
zero labels), a space, the `%f` fixed-point value, a space, the integer
millisecond timestamp, and a newline.  Instantiated on descriptor `x`,
help `h`, gauge, labels `a="1"`, value 3.5, timestamp 1000. -/
theorem c2_writer_format :
    (∀ (value : ℚ) (ts : ℤ) (meta : Metric) (labels : List (String × String)),
      writeMetric value ts meta labels =
        "# HELP " ++ meta.name ++ " " ++ meta.help ++ "\n" ++
        "# TYPE " ++ meta.name ++ " " ++ meta.type.render ++ "\n" ++
        meta.name ++
        (if labels ++ meta.extraLabels = [] then ""
         else "\x7b" ++ commaJoin ((labels ++ meta.extraLabels).map labelPairRender)
           ++ "\x7d") ++
        " " ++ formatFixed6 value ++ " " ++ toString ts ++ "\n") ∧
    writeMetric (3.5 : ℚ) 1000 ⟨"x", "h", .gauge, []⟩ [("a", "1")] =
      "# HELP x h\n" ++ "# TYPE x gauge\n" ++ "x\x7ba=\"1\"\x7d 3.500000 1000\n" := by
  constructor
  · intro value ts meta labels
    by_cases hemp : labels ++ meta.extraLabels = []
    · obtain ⟨h1, h2⟩ := List.append_eq_nil.mp hemp
      rw [writeMetric, hemp]
      simp [h1, h2]
    · have hne : labels ≠ [] ∨ meta.extraLabels ≠ [] := by
        by_contra hc
        push_neg at hc
        exact hemp (by rw [hc.1, hc.2]; rfl)
      have hb : (decide (labels.length > 0) || decide (meta.extraLabels.length > 0))
          = true := by
        rcases hne with h | h
        · simp [List.length_pos.mpr h]
        · simp [List.length_pos.mpr h]
      rw [writeMetric]
      simp only [hb, if_true, if_neg hemp]
      rw [writeLabelPairs_eq]
  · rw [show (3.5 : ℚ) = mkRat 7 2 by rw [Rat.mkRat_eq_div]; norm_num]
    decide

theorem string_empty_append (s : String) : "" ++ s = s := rfl

/-- C10: with an empty help text — as on the two synthetic partition
descriptors, which define no help — the writer still emits a HELP line
consisting of `# HELP `, the metric name, and a trailing space before the
newline, followed by the normal TYPE line. -/
theorem c10_empty_help_line (meta : Metric) (value : ℚ) (ts : ℤ)
    (labels : List (String × String)) (hhelp : meta.help = "") :
    (∃ rest, writeMetric value ts meta labels =
      "# HELP " ++ meta.name ++ " " ++ "\n" ++
      "# TYPE " ++ meta.name ++ " " ++ meta.type.render ++ "\n" ++ rest) ∧
    metricTotalPartitions.help = "" ∧ metricMissingPartitions.help = "" := by
  refine ⟨⟨meta.name ++
    (if (decide (labels.length > 0) || decide (meta.extraLabels.length > 0))
     then "\x7b" ++ writeLabelPairs (labels ++ meta.extraLabels) ++ "\x7d" else "") ++
    " " ++ formatFixed6 value ++ " " ++ toString ts ++ "\n", ?_⟩, rfl, rfl⟩
  rw [writeMetric, hhelp]
  simp [String.append_assoc, string_empty_append]

/-- Closed instantiation of C10 on the synthetic total-partitions gauge. -/
theorem c10_witness :
    metricTotalPartitions.help = "" ∧
    ((∃ rest, writeMetric 0 0 metricTotalPartitions [] =
      "# HELP " ++ metricTotalPartitions.name ++ " " ++ "\n" ++
      "# TYPE " ++ metricTotalPartitions.name ++ " " ++
        metricTotalPartitions.type.render ++ "\n" ++ rest) ∧
     metricTotalPartitions.help = "" ∧ metricMissingPartitions.help = "") :=
  ⟨rfl, c10_empty_help_line metricTotalPartitions 0 0 [] rfl⟩

theorem filterMapCongr {α β : Type} (l : List α) (f g : α → Option β)
    (h : ∀ x ∈ l, f x = g x) : l.filterMap f = l.filterMap g := by
  induction l with
  | nil => rfl
  | cons x rest ih =>
    rw [List.filterMap_cons, List.filterMap_cons, h x (List.mem_cons_self _ _),
      ih (fun y hy => h y (List.mem_cons_of_mem _ hy))]

theorem countPCongr {α : Type} (l : List α) (p q : α → Bool)
    (h : ∀ x ∈ l, p x = q x) : l.countP p = l.countP q := by
  induction l with
  | nil => rfl
  | cons x rest ih =>
    rw [List.countP_cons, List.countP_cons, h x (List.mem_cons_self _ _),
      ih (fun y hy => h y (List.mem_cons_of_mem _ hy))]

theorem lookupA_buildIdxToMetric_lt (metrics : List (String × Metric))
    (names : List String) (idx : ℕ) (acc : List (ℕ × Metric)) (j : ℕ) (h : j < idx) :
    lookupA (buildIdxToMetric metrics idx names acc) j = lookupA acc j := by
  induction names generalizing idx acc with
  | nil => rfl
  | cons nm rest ih =>
    rw [buildIdxToMetric]
    rw [ih (idx + 1) _ (Nat.lt_succ_of_lt h)]
    cases hm : lookupA metrics nm with
    | none => rfl
    | some m =>
      exact lookupA_upsert_ne _ _ _ _ (Nat.ne_of_lt h)

theorem lookupA_buildIdxToMetric (metrics : List (String × Metric))
    (names : List String) (idx : ℕ) (acc : List (ℕ × Metric)) (j : ℕ) (h : idx ≤ j) :
    lookupA (buildIdxToMetric metrics idx names acc) j =
      match (names.get? (j - idx)).bind (lookupA metrics) with
      | some m => some m
      | none => lookupA acc j := by
  induction names generalizing idx acc with
  | nil => simp [buildIdxToMetric]
  | cons nm rest ih =>
    rw [buildIdxToMetric]
    by_cases hij : j = idx
    · subst hij
      rw [lookupA_buildIdxToMetric_lt _ _ _ _ _ (Nat.lt_succ_self j)]
      rw [Nat.sub_self, List.get?_cons_zero, Option.some_bind]
      cases hm : lookupA metrics nm with
      | none => simp
      | some m => simp [lookupA_upsert_self]
    · have hlt : idx + 1 ≤ j := Nat.lt_of_le_of_ne h (fun e => hij e.symm)
      rw [ih (idx + 1) _ hlt]
      have hsub : j - idx = (j - (idx + 1)) + 1 := by omega
      rw [hsub, List.get?_cons_succ]
      cases hb : (rest.get? (j - (idx + 1))).bind (lookupA metrics) with
      | some m => rfl
      | none =>
        cases hm : lookupA metrics nm with
        | none => rfl
        | some m =>
          exact lookupA_upsert_ne _ _ _ _ (by omega)

theorem lookupA_idxToMetric (metrics : List (String × Metric))
    (names : List String) (j : ℕ) :
    lookupA (idxToMetric metrics names) j = (names.get? j).bind (lookupA metrics) := by
  rw [idxToMetric, lookupA_buildIdxToMetric _ _ _ _ _ (Nat.zero_le j), Nat.sub_zero]
  cases hb : (names.get? j).bind (lookupA metrics) with
  | some m => rfl
  | none => rfl

theorem emitSamples_eq (i2m : List (ℕ × Metric)) (labels : List (String × String))
    (tsMs : ℤ) (vs : List ℚ) (i : ℕ) :
    emitSamples i2m labels tsMs i vs =
      (List.range vs.length).filterMap (fun k =>
        match vs.get? k, lookupA i2m (i + k) with
        | some v, some m => some ⟨m, labels, v, tsMs⟩
        | _, _ => none) := by
  induction vs generalizing i with
  | nil => rfl
  | cons v rest ih =>
    rw [emitSamples, List.length_cons, List.range_succ_eq_map, List.filterMap_cons,
      List.filterMap_map]
    have hcongr : ((fun k =>
        match (v :: rest).get? k, lookupA i2m (i + k) with
        | some v, some m => some (Sample.mk m labels v tsMs)
        | _, _ => none) ∘ Nat.succ)
        = (fun k =>
            match rest.get? k, lookupA i2m (i + 1 + k) with
            | some v, some m => some (Sample.mk m labels v tsMs)
            | _, _ => none) := by
      funext k
      simp only [Function.comp_apply, List.get?_cons_succ, Nat.add_succ, Nat.succ_add]
    rw [hcongr, ← ih (i + 1)]
    simp only [List.get?_cons_zero, Nat.add_zero]
    cases hm : lookupA i2m i with
    | some m => rfl
    | none => rfl

theorem countP_range_lookup (metrics : List (String × Metric)) (names : List String) :
    (List.range names.length).countP
      (fun k => ((names.get? k).bind (lookupA metrics)).isSome)
      = names.countP (fun nm => (lookupA metrics nm).isSome) := by
  induction names with
  | nil => rfl
  | cons nm rest ih =>
    rw [List.length_cons, List.range_succ_eq_map, List.countP_cons, List.countP_map]
    have hc : ((fun k => (((nm :: rest).get? k).bind (lookupA metrics)).isSome) ∘ Nat.succ)
        = (fun k => ((rest.get? k).bind (lookupA metrics)).isSome) := by
      funext k
      simp only [Function.comp_apply, List.get?_cons_succ]
    rw [hc, ih, List.countP_cons]
    simp

/-- C3: Multi-metric fan-out: with values aligned positionally to the
metadata's field names, a row translates to exactly as many samples as
there are columns whose field name is present in the job's `Metrics`
mapping; every sample carries the row's label set and millisecond
timestamp, and each comes from one matched column, with that column's
descriptor and that column's value; zero matched columns give zero
samples. -/
theorem c3_fanout (job : Job) (fieldNames : List String)
    (renameDims : List (String × String)) (row : FlatRow)
    (hlen : row.values.length = fieldNames.length) :
    (rowSamples job fieldNames renameDims row).length
        = fieldNames.countP (fun nm => (lookupA job.metrics nm).isSome) ∧
    (∀ s ∈ rowSamples job fieldNames renameDims row,
      s.labels = translateLabels renameDims row.key ∧
      s.ts = Int.tdiv row.ts 1000000 ∧
      ∃ i nm, fieldNames.get? i = some nm ∧ lookupA job.metrics nm = some s.metric ∧
        row.values.get? i = some s.value) ∧
    (fieldNames.countP (fun nm => (lookupA job.metrics nm).isSome) = 0 →
      rowSamples job fieldNames renameDims row = []) := by
  have hchar : rowSamples job fieldNames renameDims row
      = (List.range row.values.length).filterMap (fun k =>
          match row.values.get? k, (fieldNames.get? k).bind (lookupA job.metrics) with
          | some v, some m =>
            some ⟨m, translateLabels renameDims row.key, v, Int.tdiv row.ts 1000000⟩
          | _, _ => none) := by
    rw [rowSamples, emitSamples_eq]
    apply filterMapCongr
    intro k _
    simp only [Nat.zero_add, lookupA_idxToMetric]
  have hlength : (rowSamples job fieldNames renameDims row).length
      = fieldNames.countP (fun nm => (lookupA job.metrics nm).isSome) := by
    rw [hchar, List.length_filterMap_eq_countP]
    have h1 : (List.range row.values.length).countP (fun k =>
        (match row.values.get? k, (fieldNames.get? k).bind (lookupA job.metrics) with
         | some v, some m =>
           some (Sample.mk m (translateLabels renameDims row.key) v
             (Int.tdiv row.ts 1000000))
         | _, _ => none).isSome)
        = (List.range row.values.length).countP
            (fun k => ((fieldNames.get? k).bind (lookupA job.metrics)).isSome) := by
      apply countPCongr
      intro k hk
      have hklt : k < row.values.length := List.mem_range.mp hk
      rw [List.get?_eq_get hklt]
      cases hb : (fieldNames.get? k).bind (lookupA job.metrics) with
      | some m => rfl
      | none => rfl
    rw [h1, hlen, countP_range_lookup]
  refine ⟨hlength, fun s hs => ?_,
    fun h0 => List.length_eq_zero.mp (by rw [hlength, h0])⟩
  rw [hchar] at hs
  obtain ⟨k, _, heq⟩ := List.mem_filterMap.mp hs
  cases hv : row.values.get? k with
  | none => rw [hv] at heq; simp at heq
  | some v =>
    rw [hv] at heq
    cases hb : (fieldNames.get? k).bind (lookupA job.metrics) with
    | none => rw [hb] at heq; simp at heq
    | some m =>
      rw [hb] at heq
      obtain rfl := (Option.some.inj heq)
      obtain ⟨nm, hnm, hlook⟩ := Option.bind_eq_some.mp hb
      exact ⟨rfl, rfl, k, nm, hnm, hlook, hv⟩

/-- Concrete job for the C3 witness: two of three columns are mapped. -/
def c3Job : Job :=
  ⟨"", [], [], [("v1", ⟨"m1", "", .gauge, []⟩), ("v2", ⟨"m2", "", .counter, []⟩)]⟩

/-- Concrete row for the C3 witness. -/
def c3Row : FlatRow :=
  ⟨[], 0, [1, 2, 3]⟩

/-- Closed instantiation of the C3 fan-out on a three-column row with two
matched columns. -/
theorem c3_witness :
    c3Row.values.length = (["v1", "x", "v2"] : List String).length ∧
    ((rowSamples c3Job ["v1", "x", "v2"] [] c3Row).length
        = (["v1", "x", "v2"] : List String).countP
            (fun nm => (lookupA c3Job.metrics nm).isSome) ∧
     (∀ s ∈ rowSamples c3Job ["v1", "x", "v2"] [] c3Row,
       s.labels = translateLabels [] c3Row.key ∧
       s.ts = Int.tdiv c3Row.ts 1000000 ∧
       ∃ i nm, (["v1", "x", "v2"] : List String).get? i = some nm ∧
         lookupA c3Job.metrics nm = some s.metric ∧
         c3Row.values.get? i = some s.value) ∧
     ((["v1", "x", "v2"] : List String).countP
         (fun nm => (lookupA c3Job.metrics nm).isSome) = 0 →
       rowSamples c3Job ["v1", "x", "v2"] [] c3Row = [])) :=
  ⟨by decide, c3_fanout c3Job ["v1", "x", "v2"] [] c3Row (by decide)⟩

/-- C4: Completeness accounting: on every successful query execution,
`runJob` appends — after all row output — exactly the two synthetic gauge
samples: total partitions and total minus successful, both labeled only
`job=<job name>` and both timestamped at the wall-clock emission time
`now`, independent of row timestamps. -/
theorem c4_completeness {T : Type} (engine : TemplateEngine T)
    (client : String → Except String QueryResult) (name : String) (job : Job)
    (params : List (String × String)) (now : ℤ) (q : String) (res : QueryResult)
    (hq : resolveQuery engine job.query params = Except.ok q)
    (hclient : client q = Except.ok res) :
    runJob engine client name job params now =
      Except.ok (String.join (res.rows.map
          (rowOutput job res.fieldNames (foldIgnoreDims job.renameDims job.ignoreDims))) ++
        writeMetric ((res.stats.numPartitions : ℤ) : ℚ) now metricTotalPartitions
          [("job", name)] ++
        writeMetric (((res.stats.numPartitions - res.stats.numSuccessfulPartitions : ℤ)) : ℚ)
          now metricMissingPartitions [("job", name)]) ∧
    metricTotalPartitions.type = MetricType.gauge ∧
    metricMissingPartitions.type = MetricType.gauge ∧
    metricTotalPartitions.extraLabels = [] ∧
    metricMissingPartitions.extraLabels = [] := by
  refine ⟨?_, rfl, rfl, rfl, rfl⟩
  unfold runJob
  simp only [hq, hclient]

/-- Concrete template engine for witnesses: parsing yields a unit token and
execution renders the empty string. -/
def trivEngine : TemplateEngine Unit :=
  ⟨fun _ => Except.ok (), fun _ _ => Except.ok ""⟩

/-- Concrete query client for the C4 witness: five partitions, three
successful, no rows. -/
def c4Client : String → Except String QueryResult :=
  fun _ => Except.ok ⟨[], [], ⟨5, 3⟩⟩

/-- Closed instantiation of C4 on the spec's example: stats {total 5,
successful 3} for job `daily` yield gauges 5 and 2 labeled job="daily". -/
theorem c4_witness :
    resolveQuery trivEngine (Job.query ⟨"", [], [], []⟩) [] = Except.ok "" ∧
    c4Client "" = Except.ok ⟨[], [], ⟨5, 3⟩⟩ ∧
    (runJob trivEngine c4Client "daily" ⟨"", [], [], []⟩ [] 0 =
      Except.ok ("" ++
        writeMetric ((5 : ℤ) : ℚ) 0 metricTotalPartitions [("job", "daily")] ++
        writeMetric (((5 - 3 : ℤ)) : ℚ) 0 metricMissingPartitions [("job", "daily")]) ∧
     metricTotalPartitions.type = MetricType.gauge ∧
     metricMissingPartitions.type = MetricType.gauge ∧
     metricTotalPartitions.extraLabels = [] ∧
     metricMissingPartitions.extraLabels = []) :=
  ⟨rfl, rfl, c4_completeness trivEngine c4Client "daily" ⟨"", [], [], []⟩ [] 0 ""
    ⟨[], [], ⟨5, 3⟩⟩ rfl rfl⟩

/-- C6 evaluated at its failing input: the byte output of `writeMetric`
depends on the enumeration order of the labels map — the two enumeration
orders of one and the same two-entry map (a permutation, equal as a map)
yield different label-pair serializations and different sample lines.  The
program ranges over Go maps here (`for name, value := range labels`),
whose per-call iteration order Go randomizes, so the order-dependence
proved below means repeated runs on identical input need not produce the
claimed consistent byte order; the deterministic embedding fixes one order
and cannot itself exhibit the randomization. -/
theorem c6_order_sensitivity :
    ([("a", "1"), ("b", "2")] : List (String × String)).Perm
      [("b", "2"), ("a", "1")] ∧
    lookupA [("a", "1"), ("b", "2")] "a" = lookupA [("b", "2"), ("a", "1")] "a" ∧
    lookupA [("a", "1"), ("b", "2")] "b" = lookupA [("b", "2"), ("a", "1")] "b" ∧
    writeLabelPairs [("a", "1"), ("b", "2")]
      ≠ writeLabelPairs [("b", "2"), ("a", "1")] ∧
    writeMetric 0 0 ⟨"x", "h", .gauge, []⟩ [("a", "1"), ("b", "2")]
      ≠ writeMetric 0 0 ⟨"x", "h", .gauge, []⟩ [("b", "2"), ("a", "1")] := by
  decide

/-- C7: Query templating: with an empty parameter mapping the template
string is used verbatim and the template engine is never consulted (the
result is the same for every engine); with a non-empty mapping and a
failing parse-or-execute, `runJob` returns a template error and the
external query client is never invoked (the result is the same for every
client). -/
theorem c7_templating :
    (∀ (T : Type) (engine : TemplateEngine T) (q : String),
      resolveQuery engine q [] = Except.ok q) ∧
    (∀ (T : Type) (engine : TemplateEngine T)
       (client client' : String → Except String QueryResult)
       (name : String) (job : Job) (params : List (String × String)) (now : ℤ)
       (e : String), params ≠ [] →
      resolveQuery engine job.query params = Except.error e →
      runJob engine client name job params now = Except.error (RunError.templateError e) ∧
      runJob engine client name job params now
        = runJob engine client' name job params now) := by
  constructor
  · intro T engine q
    rw [resolveQuery]
    simp
  · intro T engine client client' name job params now e _hne herr
    have h1 : runJob engine client name job params now
        = Except.error (RunError.templateError e) := by
      unfold runJob
      simp only [herr]
    have h2 : runJob engine client' name job params now
        = Except.error (RunError.templateError e) := by
      unfold runJob
      simp only [herr]
    exact ⟨h1, h1.trans h2.symm⟩

/-- Concrete always-failing template engine for the C7 witness. -/
def failEngine : TemplateEngine Unit :=
  ⟨fun _ => Except.error "bad template", fun _ _ => Except.ok ""⟩

/-- Closed instantiation of C7's failure half: a job with one parameter and
a failing parse aborts with a template error under every client. -/
theorem c7_witness :
    ([("k", "v")] : List (String × String)) ≠ [] ∧
    resolveQuery failEngine (Job.query ⟨"q", [], [], []⟩) [("k", "v")]
      = Except.error "bad template" ∧
    (runJob failEngine c4Client "j" ⟨"q", [], [], []⟩ [("k", "v")] 0
        = Except.error (RunError.templateError "bad template") ∧
     runJob failEngine c4Client "j" ⟨"q", [], [], []⟩ [("k", "v")] 0
        = runJob failEngine (fun _ => Except.error "down") "j" ⟨"q", [], [], []⟩
            [("k", "v")] 0) :=
  ⟨by decide, rfl,
    c7_templating.2 Unit failEngine c4Client (fun _ => Except.error "down") "j"
      ⟨"q", [], [], []⟩ [("k", "v")] 0 "bad template" (by decide) rfl⟩

/-- Counterexample to C8 as stated: with no `job` parameter the handler
answers 400, but the body is `job not specified` followed by a newline
(`io.WriteString(rw, "job not specified\n")`), not the bare string the
claim names. -/
theorem c8_counterexample :
    (handleMetrics [] trivEngine c4Client 0 []).status = 400 ∧
    (handleMetrics [] trivEngine c4Client 0 []).body = "job not specified\n" ∧
    (handleMetrics [] trivEngine c4Client 0 []).body ≠ "job not specified" := by
  refine ⟨rfl, rfl, ?_⟩
  decide

/-- C8 (amended): a missing job parameter yields 400 with body
`job not specified` plus a trailing newline; an unknown job yields 404 with
body `job not found` plus a trailing newline; in both cases the response is
independent of the template engine, the query client, and the clock — the
job is never executed. -/
theorem c8_amended {T T' : Type} (jobs : List (String × Job))
    (engine : TemplateEngine T) (engine' : TemplateEngine T')
    (client client' : String → Except String QueryResult) (now now' : ℤ)
    (query : List (String × List String)) :
    (getParam query "job" = "" →
      handleMetrics jobs engine client now query = ⟨400, "job not specified\n"⟩ ∧
      handleMetrics jobs engine client now query
        = handleMetrics jobs engine' client' now' query) ∧
    (∀ name, getParam query "job" = name → name ≠ "" → lookupA jobs name = none →
      handleMetrics jobs engine client now query = ⟨404, "job not found\n"⟩ ∧
      handleMetrics jobs engine client now query
        = handleMetrics jobs engine' client' now' query) := by
  constructor
  · intro h
    constructor
    · simp [handleMetrics, h]
    · simp [handleMetrics, h]
  · intro name hname hne hmiss
    constructor
    · simp [handleMetrics, hname, hne, hmiss]
    · simp [handleMetrics, hname, hne, hmiss]

/-- Closed instantiation of the amended C8 on both error paths. -/
theorem c8_witness :
    (getParam [] "job" = "" ∧
     (handleMetrics ([] : List (String × Job)) trivEngine c4Client 0 []
        = ⟨400, "job not specified\n"⟩ ∧
      handleMetrics ([] : List (String × Job)) trivEngine c4Client 0 []
        = handleMetrics [] trivEngine (fun _ => Except.error "down") 1 [])) ∧
    (getParam [("job", ["nope"])] "job" = "nope" ∧
     ("nope" : String) ≠ "" ∧
     lookupA ([] : List (String × Job)) "nope" = none ∧
     (handleMetrics ([] : List (String × Job)) trivEngine c4Client 0 [("job", ["nope"])]
        = ⟨404, "job not found\n"⟩ ∧
      handleMetrics ([] : List (String × Job)) trivEngine c4Client 0 [("job", ["nope"])]
        = handleMetrics [] trivEngine (fun _ => Except.error "down") 1
            [("job", ["nope"])])) :=
  ⟨⟨rfl, (c8_amended [] trivEngine trivEngine c4Client (fun _ => Except.error "down")
      0 1 []).1 rfl⟩,
   ⟨rfl, by decide, rfl,
    (c8_amended [] trivEngine trivEngine c4Client (fun _ => Except.error "down")
      0 1 [("job", ["nope"])]).2 "nope" rfl (by decide) rfl⟩⟩

theorem buildIdxToMetric_nil (names : List String) (idx : ℕ)
    (acc : List (ℕ × Metric)) : buildIdxToMetric [] idx names acc = acc := by
  induction names generalizing idx with
  | nil => rfl
  | cons nm rest ih => exact ih (idx + 1)

theorem emitSamples_nil_i2m (labels : List (String × String)) (tsMs : ℤ)
    (vs : List ℚ) (i : ℕ) : emitSamples [] labels tsMs i vs = [] := by
  induction vs generalizing i with
  | nil => rfl
  | cons v rest ih =>
    rw [emitSamples]
    exact ih (i + 1)

theorem foldl_append_all_empty (l : List String) (s : String) (h : ∀ x ∈ l, x = "") :
    l.foldl (fun r t => r ++ t) s = s := by
  induction l generalizing s with
  | nil => rfl
  | cons x rest ih =>
    rw [List.foldl_cons, h x (List.mem_cons_self _ _)]
    rw [show s ++ "" = s by simp]
    exact ih s (fun y hy => h y (List.mem_cons_of_mem _ hy))

theorem string_join_map_empty {α : Type} (l : List α) (f : α → String)
    (h : ∀ x ∈ l, f x = "") : String.join (l.map f) = "" := by
  have hall : ∀ x ∈ l.map f, x = "" := by
    intro x hx
    obtain ⟨a, ha, rfl⟩ := List.mem_map.mp hx
    exact h a ha
  exact foldl_append_all_empty (l.map f) "" hall

/-- C9: the single-config handler variant writes the 404 status and the
`job not found` body and then, lacking a return, still invokes `runJob` on
the zero-value `Job`; when the query client answers, the two completeness
gauges — labeled with the empty job name — are appended after the error
body (a zero-value job maps no metrics, so the rows contribute nothing). -/
theorem c9_single_config_fallthrough (cfg : Config) {T : Type}
    (engine : TemplateEngine T) (client : String → Except String QueryResult)
    (now : ℤ) (query : List (String × List String)) (name : String)
    (res : QueryResult)
    (hname : getParam query "job" = name) (hne : name ≠ "")
    (hmiss : lookupA cfg.jobs name = none)
    (hclient : client "" = Except.ok res) :
    handleMetricsSingle cfg engine client now query =
      ⟨404, "job not found" ++
        writeMetric ((res.stats.numPartitions : ℤ) : ℚ) now metricTotalPartitions
          [("job", "")] ++
        writeMetric (((res.stats.numPartitions - res.stats.numSuccessfulPartitions : ℤ)) : ℚ)
          now metricMissingPartitions [("job", "")]⟩ := by
  have hq : resolveQuery engine zeroJob.query ([] : List (String × String))
      = Except.ok "" := rfl
  have hjoin : String.join (res.rows.map (rowOutput zeroJob res.fieldNames
      (foldIgnoreDims zeroJob.renameDims zeroJob.ignoreDims))) = "" := by
    apply string_join_map_empty
    intro row _
    rw [rowOutput, rowSamples]
    rw [show idxToMetric zeroJob.metrics res.fieldNames = [] from
      buildIdxToMetric_nil res.fieldNames 0 []]
    rw [emitSamples_nil_i2m]
    rfl
  unfold handleMetricsSingle
  simp only [hname, if_neg hne, hmiss]
  unfold runJob
  simp only [hq, hclient, hjoin]
  simp [String.append_assoc]

/-- Closed instantiation of C9: unknown job `nope` against an empty config,
client reporting stats {total 5, successful 3}. -/
theorem c9_witness :
    getParam [("job", ["nope"])] "job" = "nope" ∧
    ("nope" : String) ≠ "" ∧
    lookupA (Config.mk []).jobs "nope" = none ∧
    c4Client "" = Except.ok ⟨[], [], ⟨5, 3⟩⟩ ∧
    handleMetricsSingle (Config.mk []) trivEngine c4Client 0 [("job", ["nope"])] =
      ⟨404, "job not found" ++
        writeMetric ((5 : ℤ) : ℚ) 0 metricTotalPartitions [("job", "")] ++
        writeMetric (((5 - 3 : ℤ)) : ℚ) 0 metricMissingPartitions [("job", "")]⟩ :=
  ⟨rfl, by decide, rfl, rfl,
    c9_single_config_fallthrough (Config.mk []) trivEngine c4Client 0
      [("job", ["nope"])] "nope" ⟨[], [], ⟨5, 3⟩⟩ rfl (by decide) rfl rfl⟩

end Zeno
